import Mathlib

/-!
Verification of the skill-activation trigger matcher
(`helpers/hooks/skill_activation_prompt.py`).

The Python hook loads a rule set (`skills` mapping), matches a user prompt
against keyword and regex "intent pattern" triggers, groups matches by
priority for display, and wraps the report in a JSON envelope.

Shallow embedding notes:
* A regular expression is modelled abstractly by a `Pattern`: its source
  text, whether `re.compile` succeeds (`compiles`), and the semantics of
  `re.search(pattern, text, re.IGNORECASE)` as a boolean function of the
  text (`searchMatches`).  The control flow of the hook only inspects
  these observables.
* Python's `str.lower()` is modelled as character-wise lowering.
* Messages printed to `stderr` are modelled as a list of structured
  `Diag` values; `stdout` payloads as `Option HookOutput`.
* `json.load` / `json.loads` outcomes and file-system outcomes are
  modelled as explicit `LoadResult` / `ParseResult` values, since the
  embedding has no I/O.
-/

namespace SkillActivation

/-- Abstract model of one entry of an `intentPatterns` list. -/
structure Pattern where
  source : String
  compiles : Bool
  searchMatches : String → Bool

/-- One value of the `skills` mapping: `promptTriggers.keywords`,
`promptTriggers.intentPatterns` (missing keys default to `[]`, as with
`dict.get(..., [])`), and the top-level `priority` key (`none` when the
key is absent, as with `dict.get("priority")`). -/
structure SkillConfig where
  keywords : List String
  intentPatterns : List Pattern
  priority : Option String

/-- One element of the list returned by `check_prompt`. -/
structure MatchResult where
  name : String
  match_type : String
  config : SkillConfig

/-- Structured model of the diagnostic messages printed to `stderr`. -/
inductive Diag where
  | invalidRegex (pattern : String)
  | invalidPriority (skillName : String) (priority : Option String)
  | rulesNotFound (path : String)
  | rulesParseError (msg : String)
  | hookException (msg : String)
deriving DecidableEq

/-- Character-wise model of Python's `str.lower()`. -/
def strLower (s : String) : String :=
  String.mk (s.data.map Char.toLower)

/-- Helper for substring containment: does `sub` occur as a prefix of some
suffix of the character list? -/
def substrAux (sub : List Char) : List Char → Bool
  | [] => List.isPrefixOf sub []
  | c :: cs => List.isPrefixOf sub (c :: cs) || substrAux sub cs

/-- Model of Python's `sub in s` substring containment test. -/
def containsSubstr (s sub : String) : Bool :=
  substrAux sub.data s.data

/-- The keyword clause of `check_prompt`:
`keywords and any(kw.lower() in prompt_lower for kw in keywords)`. -/
def keywordHit (promptLower : String) (cfg : SkillConfig) : Bool :=
  !cfg.keywords.isEmpty &&
    cfg.keywords.any (fun kw => containsSubstr promptLower (strLower kw))

/-- `p.compiles && p.searchMatches prompt`: the pattern compiles and its
case-insensitive search over the original prompt succeeds. -/
def patternHit (prompt : String) (p : Pattern) : Bool :=
  p.compiles && p.searchMatches prompt

/-- The `for pattern in intent_patterns` loop of `check_prompt`: try the
patterns in order against the original (non-lowercased) prompt; a
non-compiling pattern emits a warning and is skipped; the first match
emits the result and breaks. -/
def intentLoop (prompt skillName : String) (cfg : SkillConfig) :
    List Pattern → Option MatchResult × List Diag
  | [] => (none, [])
  | p :: ps =>
    if p.compiles then
      if p.searchMatches prompt then
        (some ⟨skillName, "intent", cfg⟩, [])
      else intentLoop prompt skillName cfg ps
    else
      let rest := intentLoop prompt skillName cfg ps
      (rest.1, Diag.invalidRegex p.source :: rest.2)

/-- The per-rule body of `check_prompt`: keyword triggers are checked
first against the lowercased prompt and, on success, short-circuit
(`continue`) the intent-pattern check. -/
def checkRule (prompt promptLower skillName : String) (cfg : SkillConfig) :
    Option MatchResult × List Diag :=
  if keywordHit promptLower cfg then
    (some ⟨skillName, "keyword", cfg⟩, [])
  else
    intentLoop prompt skillName cfg cfg.intentPatterns

/-- The `for skill_name, config in skills.items()` loop of
`check_prompt`, accumulating matches and warnings in iteration order. -/
def checkPromptAux (prompt promptLower : String) :
    List (String × SkillConfig) → List MatchResult × List Diag
  | [] => ([], [])
  | (skillName, cfg) :: rest =>
    let r := checkRule prompt promptLower skillName cfg
    let rs := checkPromptAux prompt promptLower rest
    (r.1.toList ++ rs.1, r.2 ++ rs.2)

/-- `SkillActivationChecker.check_prompt`.  The rule set is the `skills`
mapping in insertion order (Python dicts are insertion-ordered and have
unique keys).  The second component is the stream of warnings printed to
`stderr` during evaluation. -/
def check_prompt (rules : List (String × SkillConfig)) (prompt : String) :
    List MatchResult × List Diag :=
  checkPromptAux prompt (strLower prompt) rules

/-- The `"━" * 42` banner line. -/
def banner : String :=
  String.mk (List.replicate 42 '━')

/-- The header title line of the report. -/
def titleLine : String := "🎯 SKILL ACTIVATION CHECK"

/-- The trailing action directive of the report. -/
def actionLine : String := "ACTION: Use Skill tool BEFORE responding"

/-- The four header lines of a non-empty report. -/
def headerBlock : List String := [banner, titleLine, banner, ""]

/-- The two footer lines of a non-empty report. -/
def footerBlock : List String := [actionLine, banner]

/-- The list-comprehension filters of `format_output`:
`[s for s in matched_skills if s["config"].get("priority") == p]`. -/
def priorityFilter (matched : List MatchResult) (p : String) :
    List MatchResult :=
  matched.filter (fun s =>
    match s.config.priority with
    | some q => q == p
    | none => false)

/-- The `known_priorities` set of `format_output`. -/
def known_priorities : List String := ["critical", "high", "medium", "low"]

/-- Whether a `priority` value is one of the recognized priorities
(`priority in known_priorities`; a missing value is never recognized). -/
def isValidPriority : Option String → Bool
  | some p => known_priorities.contains p
  | none => false

/-- The warning loop of `format_output`: one `stderr` warning per matched
skill whose priority is missing or unrecognized. -/
def priorityWarnings (matched : List MatchResult) : List Diag :=
  matched.filterMap (fun s =>
    if isValidPriority s.config.priority then none
    else some (Diag.invalidPriority s.name s.config.priority))

/-- The label line opening the critical bucket section. -/
def criticalLabel : String := "⚠️  CRITICAL SKILLS (REQUIRED):"

/-- The label line opening the high bucket section. -/
def highLabel : String := "📚 RECOMMENDED SKILLS:"

/-- The label line opening the medium bucket section. -/
def mediumLabel : String := "💡 SUGGESTED SKILLS:"

/-- The label line opening the low bucket section. -/
def lowLabel : String := "📌 OPTIONAL SKILLS:"

/-- The label used for each priority bucket. -/
def labelOf : String → String
  | "critical" => criticalLabel
  | "high" => highLabel
  | "medium" => mediumLabel
  | _ => lowLabel

/-- One `if <bucket>:` block of `format_output`: label, one `  → name`
line per skill in the bucket, then a blank line; nothing when the bucket
is empty. -/
def sectionLines (label : String) (skills : List MatchResult) :
    List String :=
  if skills.isEmpty then []
  else label :: (skills.map (fun s => "  → " ++ s.name) ++ [""])

/-- All lines of a non-empty report, in the order `format_output`
appends them. -/
def reportLines (matched : List MatchResult) : List String :=
  headerBlock
    ++ sectionLines criticalLabel (priorityFilter matched "critical")
    ++ sectionLines highLabel (priorityFilter matched "high")
    ++ sectionLines mediumLabel (priorityFilter matched "medium")
    ++ sectionLines lowLabel (priorityFilter matched "low")
    ++ footerBlock

/-- Model of `"\n".join(output)`. -/
def joinLines : List String → String
  | [] => ""
  | [l] => l
  | l :: ls => l ++ "\n" ++ joinLines ls

/-- `SkillActivationChecker.format_output`: the returned report string
paired with the warnings printed to `stderr`.  An empty match list
returns the empty string before any other work. -/
def format_output (matched : List MatchResult) : String × List Diag :=
  if matched.isEmpty then ("", [])
  else (joinLines (reportLines matched), priorityWarnings matched)

/-- The JSON envelope printed by `output_json`. -/
structure HookOutput where
  hookEventName : String
  additionalContext : String
deriving DecidableEq

/-- `SkillActivationChecker.output_json`: no payload line for an empty
match list (`sys.exit(0)`), otherwise one envelope wrapping the
formatted report.  Second component: warnings from formatting. -/
def output_json (matched : List MatchResult) :
    Option HookOutput × List Diag :=
  if matched.isEmpty then (none, [])
  else
    let fm := format_output matched
    (some ⟨"UserPromptSubmit", fm.1⟩, fm.2)

/-- Outcome of opening and JSON-parsing the `skill-rules.json` file in
`_load_rules`. -/
inductive LoadResult where
  | found (rules : List (String × SkillConfig))
  | notFound (path : String)
  | parseError (msg : String)

/-- Outcome of `json.loads` on the stdin text in `main`: a JSON object
with optional `prompt`/`text` string fields, valid JSON that is not an
object (on which `.get` raises `AttributeError`), or a
`JSONDecodeError`. -/
inductive ParseResult where
  | parsed (promptField : Option String) (textField : Option String)
  | parsedNonDict
  | decodeError

/-- Python's `a or b` on strings: `b` when `a` is empty (falsy). -/
def pyOr (a b : String) : String :=
  if a == "" then b else a

/-- The prompt extraction of `main`:
`data.get("prompt", "") or data.get("text", "") or ""`, falling back to
the raw stdin text on `JSONDecodeError`. -/
def derivePrompt (raw : String) : ParseResult → String
  | .parsed p t => pyOr (pyOr (p.getD "") (t.getD "")) ""
  | .parsedNonDict => ""
  | .decodeError => raw

/-- Observable outcome of one `main` invocation: process exit code, the
payload line printed to `stdout` (if any), and the `stderr` diagnostics. -/
structure MainOutcome where
  exitCode : Nat
  payload : Option HookOutput
  diags : List Diag

/-- The success path of `main` once a rule set is loaded and a prompt is
derived: evaluate, emit the JSON payload, exit 0. -/
def evalOutcome (rules : List (String × SkillConfig)) (prompt : String) :
    MainOutcome :=
  let checked := check_prompt rules prompt
  let out := output_json checked.1
  ⟨0, out.1, checked.2 ++ out.2⟩

/-- `main`, as a function of the modelled I/O outcomes.  Stdin is parsed
before the rule file is loaded; an `AttributeError` from `.get` on a
non-object JSON value is caught by the outer `except Exception` handler
(exit 1); `_load_rules` failures call `sys.exit(1)` directly with a
message on `stderr`. -/
def runHook (load : LoadResult) (raw : String) (pr : ParseResult) :
    MainOutcome :=
  match pr with
  | .parsedNonDict =>
    ⟨1, none, [Diag.hookException "input object has no attribute get"]⟩
  | _ =>
    match load with
    | .notFound path => ⟨1, none, [Diag.rulesNotFound path]⟩
    | .parseError msg => ⟨1, none, [Diag.rulesParseError msg]⟩
    | .found rules => evalOutcome rules (derivePrompt raw pr)

end SkillActivation

namespace SkillActivation

theorem intentLoop_fst_eq_some_iff {prompt skillName : String}
    {cfg : SkillConfig} {ps : List Pattern} {m : MatchResult} :
    (intentLoop prompt skillName cfg ps).1 = some m ↔
      (m = ⟨skillName, "intent", cfg⟩ ∧
        ∃ p ∈ ps, p.compiles = true ∧ p.searchMatches prompt = true) := by
  induction ps with
  | nil => simp [intentLoop]
  | cons p ps ih =>
    rcases hc : p.compiles with _ | _
    · simp only [intentLoop, hc, Bool.false_eq_true, if_false, ih, List.mem_cons]
      constructor
      · rintro ⟨h1, q, hq, h2, h3⟩
        exact ⟨h1, q, Or.inr hq, h2, h3⟩
      · rintro ⟨h1, q, hq | hq, h2, h3⟩
        · subst hq
          rw [hc] at h2
          exact absurd h2 (by simp)
        · exact ⟨h1, q, hq, h2, h3⟩
    · rcases hs : p.searchMatches prompt with _ | _
      · simp only [intentLoop, hc, hs, Bool.false_eq_true, if_true, if_false,
          ih, List.mem_cons]
        constructor
        · rintro ⟨h1, q, hq, h2, h3⟩
          exact ⟨h1, q, Or.inr hq, h2, h3⟩
        · rintro ⟨h1, q, hq | hq, h2, h3⟩
          · subst hq
            rw [hs] at h3
            exact absurd h3 (by simp)
          · exact ⟨h1, q, hq, h2, h3⟩
      · simp only [intentLoop, hc, hs, if_true, Option.some_inj, List.mem_cons]
        constructor
        · rintro h
          exact ⟨h.symm, p, Or.inl rfl, hc, hs⟩
        · rintro ⟨h1, -⟩
          exact h1.symm

theorem checkRule_keyword {prompt pl skillName : String} {cfg : SkillConfig}
    (h : keywordHit pl cfg = true) :
    checkRule prompt pl skillName cfg = (some ⟨skillName, "keyword", cfg⟩, []) := by
  simp [checkRule, h]

theorem checkRule_not_keyword {prompt pl skillName : String} {cfg : SkillConfig}
    (h : keywordHit pl cfg = false) :
    checkRule prompt pl skillName cfg =
      intentLoop prompt skillName cfg cfg.intentPatterns := by
  simp [checkRule, h]

theorem checkRule_fst_name {prompt pl skillName : String} {cfg : SkillConfig}
    {m : MatchResult} (h : (checkRule prompt pl skillName cfg).1 = some m) :
    m.name = skillName := by
  rcases hk : keywordHit pl cfg with _ | _
  · rw [checkRule_not_keyword hk] at h
    rw [(intentLoop_fst_eq_some_iff.mp h).1]
  · rw [checkRule_keyword hk] at h
    cases Option.some_inj.mp h
    rfl

theorem mem_checkPromptAux {prompt pl : String}
    {rules : List (String × SkillConfig)} {m : MatchResult} :
    m ∈ (checkPromptAux prompt pl rules).1 ↔
      ∃ r ∈ rules, (checkRule prompt pl r.1 r.2).1 = some m := by
  induction rules with
  | nil => simp [checkPromptAux]
  | cons r rs ih =>
    obtain ⟨n, c⟩ := r
    simp only [checkPromptAux, List.mem_append, ih, List.mem_cons]
    constructor
    · rintro (h | ⟨q, hq, hh⟩)
      · refine ⟨(n, c), Or.inl rfl, ?_⟩
        show (checkRule prompt pl n c).1 = some m
        rcases hr : (checkRule prompt pl n c).1 with _ | m'
        · rw [hr] at h
          simp at h
        · rw [hr] at h
          simp only [Option.toList_some, List.mem_singleton] at h
          rw [h]
      · exact ⟨q, Or.inr hq, hh⟩
    · rintro ⟨q, hq | hq, hh⟩
      · subst hq
        left
        rw [hh]
        simp
      · exact Or.inr ⟨q, hq, hh⟩

theorem checkPromptAux_append (prompt pl : String)
    (l₁ l₂ : List (String × SkillConfig)) :
    checkPromptAux prompt pl (l₁ ++ l₂) =
      ((checkPromptAux prompt pl l₁).1 ++ (checkPromptAux prompt pl l₂).1,
       (checkPromptAux prompt pl l₁).2 ++ (checkPromptAux prompt pl l₂).2) := by
  induction l₁ with
  | nil => simp [checkPromptAux]
  | cons r rs ih =>
    obtain ⟨n, c⟩ := r
    simp [checkPromptAux, ih, List.append_assoc]

theorem checkPromptAux_names_sublist (prompt pl : String)
    (rules : List (String × SkillConfig)) :
    ((checkPromptAux prompt pl rules).1.map MatchResult.name).Sublist
      (rules.map Prod.fst) := by
  induction rules with
  | nil => simp [checkPromptAux]
  | cons r rs ih =>
    obtain ⟨n, c⟩ := r
    simp only [checkPromptAux, List.map_append, List.map_cons]
    rcases h : (checkRule prompt pl n c).1 with _ | m
    · simp only [Option.toList_none, List.map_nil, List.nil_append]
      exact ih.cons n
    · have hname := checkRule_fst_name h
      simp only [Option.toList_some, List.map_cons, List.map_nil,
        List.singleton_append, hname]
      exact ih.cons₂ n

end SkillActivation

namespace SkillActivation

theorem check_prompt_count_le_one {rules : List (String × SkillConfig)}
    {prompt : String} (h : (rules.map Prod.fst).Nodup) (skillName : String) :
    ((check_prompt rules prompt).1.filter
      (fun m => m.name == skillName)).length ≤ 1 := by
  have hsub := checkPromptAux_names_sublist prompt (strLower prompt) rules
  have h1 : List.countP (fun s => s == skillName)
      ((check_prompt rules prompt).1.map MatchResult.name)
      = ((check_prompt rules prompt).1.filter
          (fun m => m.name == skillName)).length := by
    rw [List.countP_map, List.countP_eq_length_filter]
    rfl
  rw [← h1]
  refine le_trans (List.Sublist.countP_le (fun s => s == skillName) hsub) ?_
  rw [← List.count_eq_countP]
  exact List.nodup_iff_count_le_one.mp h skillName

theorem keywordHit_true_of_exists {pl : String} {cfg : SkillConfig}
    (hne : cfg.keywords ≠ [])
    (hhit : ∃ kw ∈ cfg.keywords, containsSubstr pl (strLower kw) = true) :
    keywordHit pl cfg = true := by
  rcases hhit with ⟨kw, hkw, hc⟩
  have hne2 : cfg.keywords.isEmpty = false := by
    rcases hk : cfg.keywords with _ | ⟨a, l⟩
    · exact absurd hk hne
    · rfl
  simp only [keywordHit, hne2, Bool.not_false, Bool.true_and, List.any_eq_true]
  exact ⟨kw, hkw, hc⟩

/-- Claim C1: for every rule set and input, `check_prompt` yields at most
one `MatchResult` per rule (rule names are unique, as dict keys are), and
a successful keyword check short-circuits the intent patterns entirely:
the per-rule evaluation returns the keyword result with no warnings,
whatever the rule's `intentPatterns` hold. -/
theorem claim_c1_at_most_one_match_per_rule
    (rules : List (String × SkillConfig)) (prompt : String)
    (h : (rules.map Prod.fst).Nodup) :
    (∀ skillName : String,
      ((check_prompt rules prompt).1.filter
        (fun m => m.name == skillName)).length ≤ 1)
    ∧ (∀ (skillName : String) (cfg : SkillConfig),
        keywordHit (strLower prompt) cfg = true →
        checkRule prompt (strLower prompt) skillName cfg
          = (some ⟨skillName, "keyword", cfg⟩, [])) :=
  ⟨fun skillName => check_prompt_count_le_one h skillName,
   fun _ _ hk => checkRule_keyword hk⟩

/-- Concrete rule used by several witnesses: one keyword trigger. -/
def cfgKw : SkillConfig :=
  ⟨["traceback"], [], some "high"⟩

/-- Concrete one-rule rule set used by several witnesses. -/
def rulesKw : List (String × SkillConfig) :=
  [("debug-helper", cfgKw)]

theorem claim_c1_witness :
    ((rulesKw.map Prod.fst).Nodup)
    ∧ ((∀ skillName : String,
        ((check_prompt rulesKw "a Traceback").1.filter
          (fun m => m.name == skillName)).length ≤ 1)
      ∧ (∀ (skillName : String) (cfg : SkillConfig),
          keywordHit (strLower "a Traceback") cfg = true →
          checkRule "a Traceback" (strLower "a Traceback") skillName cfg
            = (some ⟨skillName, "keyword", cfg⟩, []))) :=
  ⟨by decide,
   claim_c1_at_most_one_match_per_rule rulesKw "a Traceback" (by decide)⟩

/-- Claim C2: a rule with a non-empty keyword list, one of whose keywords
is (case-insensitively) a substring of the input, appears in the result
with `match_type = "keyword"`, whatever its `intentPatterns` are. -/
theorem claim_c2_keyword_match_included
    (rules : List (String × SkillConfig)) (prompt skillName : String)
    (cfg : SkillConfig) (hmem : (skillName, cfg) ∈ rules)
    (hne : cfg.keywords ≠ [])
    (hhit : ∃ kw ∈ cfg.keywords,
      containsSubstr (strLower prompt) (strLower kw) = true) :
    MatchResult.mk skillName "keyword" cfg ∈ (check_prompt rules prompt).1 := by
  have hk := keywordHit_true_of_exists hne hhit
  show MatchResult.mk skillName "keyword" cfg
    ∈ (checkPromptAux prompt (strLower prompt) rules).1
  exact mem_checkPromptAux.mpr
    ⟨(skillName, cfg), hmem, by rw [checkRule_keyword hk]⟩

theorem claim_c2_witness :
    (("debug-helper", cfgKw) ∈ rulesKw
      ∧ cfgKw.keywords ≠ []
      ∧ ∃ kw ∈ cfgKw.keywords,
          containsSubstr (strLower "I see a Traceback here")
            (strLower kw) = true)
    ∧ MatchResult.mk "debug-helper" "keyword" cfgKw
        ∈ (check_prompt rulesKw "I see a Traceback here").1 :=
  ⟨⟨List.mem_singleton_self _, by simp [cfgKw],
    ⟨"traceback", by simp [cfgKw], by decide⟩⟩,
   claim_c2_keyword_match_included rulesKw "I see a Traceback here"
    "debug-helper" cfgKw (List.mem_singleton_self _) (by simp [cfgKw])
    ⟨"traceback", by simp [cfgKw], by decide⟩⟩

end SkillActivation

namespace SkillActivation

theorem intentLoop_first_hit {prompt skillName : String} {cfg : SkillConfig}
    {l₁ : List Pattern} {p : Pattern} {l₂ : List Pattern}
    (hmiss : ∀ q ∈ l₁, patternHit prompt q = false)
    (hhit : patternHit prompt p = true) :
    intentLoop prompt skillName cfg (l₁ ++ p :: l₂) =
      (some ⟨skillName, "intent", cfg⟩,
        (l₁.filter (fun q => !q.compiles)).map
          (fun q => Diag.invalidRegex q.source)) := by
  induction l₁ with
  | nil =>
    obtain ⟨h1, h2⟩ := Bool.and_eq_true_iff.mp hhit
    simp [intentLoop, h1, h2]
  | cons q l₁ ih =>
    have hq := hmiss q (List.mem_cons_self q l₁)
    have hrest := ih (fun r hr => hmiss r (List.mem_cons_of_mem q hr))
    rcases hc : q.compiles with _ | _
    · simp only [List.cons_append, intentLoop, hc, Bool.false_eq_true,
        if_false, List.append_eq, hrest, List.filter_cons, Bool.not_false,
        if_true, List.map_cons]
    · have hs : q.searchMatches prompt = false := by
        unfold patternHit at hq
        rw [hc] at hq
        simpa using hq
      simp only [List.cons_append, intentLoop, hc, hs, Bool.false_eq_true,
        if_true, if_false, List.append_eq, hrest, List.filter_cons,
        Bool.not_true]

/-- Claim C3: when the keyword check fails and `intentPatterns` is
non-empty, the rule appears with `match_type = "intent"` iff some pattern
compiles and its case-insensitive search over the original prompt
matches; moreover the first matching pattern stops the scan, so only the
non-compiling patterns strictly before it produce warnings. -/
theorem claim_c3_intent_match_iff
    (rules : List (String × SkillConfig)) (prompt skillName : String)
    (cfg : SkillConfig) (hmem : (skillName, cfg) ∈ rules)
    (hnokw : keywordHit (strLower prompt) cfg = false)
    (_hne : cfg.intentPatterns ≠ []) :
    (MatchResult.mk skillName "intent" cfg ∈ (check_prompt rules prompt).1 ↔
      ∃ p ∈ cfg.intentPatterns,
        p.compiles = true ∧ p.searchMatches prompt = true)
    ∧ (∀ (l₁ : List Pattern) (p : Pattern) (l₂ : List Pattern),
        cfg.intentPatterns = l₁ ++ p :: l₂ →
        (∀ q ∈ l₁, patternHit prompt q = false) →
        patternHit prompt p = true →
        checkRule prompt (strLower prompt) skillName cfg =
          (some ⟨skillName, "intent", cfg⟩,
            (l₁.filter (fun q => !q.compiles)).map
              (fun q => Diag.invalidRegex q.source))) := by
  constructor
  · constructor
    · intro hm
      have hm2 : MatchResult.mk skillName "intent" cfg
          ∈ (checkPromptAux prompt (strLower prompt) rules).1 := hm
      obtain ⟨⟨n, c⟩, _, hr⟩ := mem_checkPromptAux.mp hm2
      rcases hk : keywordHit (strLower prompt) c with _ | _
      · rw [checkRule_not_keyword hk] at hr
        obtain ⟨heq, q, hq, h1, h2⟩ := intentLoop_fst_eq_some_iff.mp hr
        have hcfg : cfg = c := congrArg MatchResult.config heq
        exact ⟨q, hcfg ▸ hq, h1, h2⟩
      · rw [checkRule_keyword hk] at hr
        have := congrArg MatchResult.match_type (Option.some_inj.mp hr)
        simp at this
    · intro hx
      show MatchResult.mk skillName "intent" cfg
        ∈ (checkPromptAux prompt (strLower prompt) rules).1
      refine mem_checkPromptAux.mpr ⟨(skillName, cfg), hmem, ?_⟩
      show (checkRule prompt (strLower prompt) skillName cfg).1 = _
      rw [checkRule_not_keyword hnokw]
      exact intentLoop_fst_eq_some_iff.mpr ⟨rfl, hx⟩
  · intro l₁ p l₂ hsplit hmiss hhit
    rw [checkRule_not_keyword hnokw, hsplit]
    exact intentLoop_first_hit hmiss hhit

/-- Concrete compiling pattern that matches one fixed prompt. -/
def patRevert : Pattern :=
  ⟨"how do I (revert|undo) a commit", true,
    fun s => s == "How do I revert a commit?"⟩

/-- Concrete rule with an intent pattern and no keywords. -/
def cfgIntent : SkillConfig :=
  ⟨[], [patRevert], some "medium"⟩

/-- Concrete one-rule rule set for intent-pattern witnesses. -/
def rulesIntent : List (String × SkillConfig) :=
  [("git-helper", cfgIntent)]

theorem claim_c3_witness :
    (("git-helper", cfgIntent) ∈ rulesIntent
      ∧ keywordHit (strLower "How do I revert a commit?") cfgIntent = false
      ∧ cfgIntent.intentPatterns ≠ [])
    ∧ ((MatchResult.mk "git-helper" "intent" cfgIntent
          ∈ (check_prompt rulesIntent "How do I revert a commit?").1 ↔
        ∃ p ∈ cfgIntent.intentPatterns,
          p.compiles = true
            ∧ p.searchMatches "How do I revert a commit?" = true)
      ∧ (∀ (l₁ : List Pattern) (p : Pattern) (l₂ : List Pattern),
          cfgIntent.intentPatterns = l₁ ++ p :: l₂ →
          (∀ q ∈ l₁, patternHit "How do I revert a commit?" q = false) →
          patternHit "How do I revert a commit?" p = true →
          checkRule "How do I revert a commit?"
              (strLower "How do I revert a commit?") "git-helper" cfgIntent =
            (some ⟨"git-helper", "intent", cfgIntent⟩,
              (l₁.filter (fun q => !q.compiles)).map
                (fun q => Diag.invalidRegex q.source)))) :=
  ⟨⟨List.mem_singleton_self _, rfl, by simp [cfgIntent]⟩,
   claim_c3_intent_match_iff rulesIntent "How do I revert a commit?"
    "git-helper" cfgIntent (List.mem_singleton_self _) rfl
    (by simp [cfgIntent])⟩

/-- Claim C4: an intent pattern that fails to compile does not abort
evaluation: the rule-local pattern loop records one warning for it and
continues with the remaining patterns, and the whole-rule-set evaluation
of any surrounding rule list proceeds: rules before and after the
affected rule contribute exactly their usual matches and warnings. -/
theorem claim_c4_invalid_pattern_skipped
    (rules₁ rules₂ : List (String × SkillConfig)) (prompt skillName : String)
    (cfg : SkillConfig) (bad : Pattern) (rest : List Pattern)
    (hbad : bad.compiles = false)
    (hpat : cfg.intentPatterns = bad :: rest) :
    (intentLoop prompt skillName cfg cfg.intentPatterns =
      ((intentLoop prompt skillName cfg rest).1,
        Diag.invalidRegex bad.source :: (intentLoop prompt skillName cfg rest).2))
    ∧ ((check_prompt (rules₁ ++ (skillName, cfg) :: rules₂) prompt).1 =
        (check_prompt rules₁ prompt).1
          ++ (checkRule prompt (strLower prompt) skillName cfg).1.toList
          ++ (check_prompt rules₂ prompt).1)
    ∧ ((check_prompt (rules₁ ++ (skillName, cfg) :: rules₂) prompt).2 =
        (check_prompt rules₁ prompt).2
          ++ (checkRule prompt (strLower prompt) skillName cfg).2
          ++ (check_prompt rules₂ prompt).2) := by
  refine ⟨?_, ?_, ?_⟩
  · rw [hpat]
    simp [intentLoop, hbad]
  · show (checkPromptAux prompt (strLower prompt)
      (rules₁ ++ (skillName, cfg) :: rules₂)).1 = _
    rw [checkPromptAux_append]
    simp [check_prompt, checkPromptAux, List.append_assoc]
  · show (checkPromptAux prompt (strLower prompt)
      (rules₁ ++ (skillName, cfg) :: rules₂)).2 = _
    rw [checkPromptAux_append]
    simp [check_prompt, checkPromptAux, List.append_assoc]

/-- Concrete non-compiling pattern. -/
def patBad : Pattern :=
  ⟨"([unclosed", false, fun _ => false⟩

/-- Concrete rule whose first intent pattern does not compile. -/
def cfgBad : SkillConfig :=
  ⟨[], [patBad, patRevert], some "low"⟩

theorem claim_c4_witness :
    (patBad.compiles = false ∧ cfgBad.intentPatterns = [patBad, patRevert])
    ∧ ((intentLoop "How do I revert a commit?" "broken-rule" cfgBad
          cfgBad.intentPatterns =
        ((intentLoop "How do I revert a commit?" "broken-rule" cfgBad
            [patRevert]).1,
          Diag.invalidRegex patBad.source
            :: (intentLoop "How do I revert a commit?" "broken-rule" cfgBad
              [patRevert]).2))
      ∧ ((check_prompt (rulesKw ++ ("broken-rule", cfgBad) :: rulesIntent)
            "How do I revert a commit?").1 =
          (check_prompt rulesKw "How do I revert a commit?").1
            ++ (checkRule "How do I revert a commit?"
                (strLower "How do I revert a commit?") "broken-rule"
                cfgBad).1.toList
            ++ (check_prompt rulesIntent "How do I revert a commit?").1)
      ∧ ((check_prompt (rulesKw ++ ("broken-rule", cfgBad) :: rulesIntent)
            "How do I revert a commit?").2 =
          (check_prompt rulesKw "How do I revert a commit?").2
            ++ (checkRule "How do I revert a commit?"
                (strLower "How do I revert a commit?") "broken-rule"
                cfgBad).2
            ++ (check_prompt rulesIntent "How do I revert a commit?").2)) :=
  ⟨⟨rfl, rfl⟩,
   claim_c4_invalid_pattern_skipped rulesKw rulesIntent
    "How do I revert a commit?" "broken-rule" cfgBad patBad [patRevert]
    rfl rfl⟩

end SkillActivation

namespace SkillActivation

theorem length_filter_beq_filterMap {α β : Type} [DecidableEq β]
    (f : α → Option β) (l : List α) (b : β) :
    ((l.filterMap f).filter (fun d => d == b)).length =
      List.countP (fun a => f a == some b) l := by
  induction l with
  | nil => rfl
  | cons x xs ih =>
    rw [List.filterMap_cons, List.countP_cons]
    rcases hf : f x with _ | y
    · simp [hf, ih]
    · by_cases hy : y = b
      · subst hy
        simp [hf, List.filter_cons, ih]
      · simp [hf, List.filter_cons, hy, ih]

theorem intentLoop_fst_isSome_congr (prompt n₁ n₂ : String)
    (c₁ c₂ : SkillConfig) (ps : List Pattern) :
    (intentLoop prompt n₁ c₁ ps).1.isSome =
      (intentLoop prompt n₂ c₂ ps).1.isSome := by
  induction ps with
  | nil => rfl
  | cons p ps ih =>
    rcases hc : p.compiles with _ | _
    · simpa [intentLoop, hc] using ih
    · rcases hs : p.searchMatches prompt with _ | _
      · simpa [intentLoop, hc, hs] using ih
      · simp [intentLoop, hc, hs]

theorem not_mem_priorityFilter {m : MatchResult} {matched : List MatchResult}
    {p : String} (hp : p ∈ known_priorities)
    (hinv : isValidPriority m.config.priority = false) :
    m ∉ priorityFilter matched p := by
  intro hm
  have hpred := List.of_mem_filter hm
  rcases hq : m.config.priority with _ | q
  · rw [hq] at hpred
    simp at hpred
  · rw [hq] at hpred
    have hqp : q = p := by simpa using hpred
    have hiv : isValidPriority (some q) = false := by rw [← hq]; exact hinv
    rw [hqp] at hiv
    have hc : known_priorities.contains p = true := by
      simpa using hp
    rw [show isValidPriority (some p) = known_priorities.contains p from rfl,
      hc] at hiv
    exact Bool.true_eq_false.mp hiv

theorem priorityWarnings_unique {rules : List (String × SkillConfig)}
    {prompt : String} {m : MatchResult}
    (hnames : (rules.map Prod.fst).Nodup)
    (hmem : m ∈ (check_prompt rules prompt).1)
    (hinv : isValidPriority m.config.priority = false) :
    ((priorityWarnings (check_prompt rules prompt).1).filter
      (fun d => d == Diag.invalidPriority m.name m.config.priority)).length
      = 1 := by
  rw [priorityWarnings, length_filter_beq_filterMap]
  apply Nat.le_antisymm
  · refine le_trans (List.countP_mono_left
      (q := fun s => s.name == m.name) ?_) ?_
    · intro s _ hcond
      by_cases hv : isValidPriority s.config.priority
      · rw [if_pos hv] at hcond
        simp at hcond
      · rw [if_neg hv] at hcond
        have h2 := Option.some_inj.mp (eq_of_beq hcond)
        have h3 : s.name = m.name := by
          injection h2
        simp [h3]
    · rw [List.countP_eq_length_filter]
      exact check_prompt_count_le_one hnames m.name
  · refine List.countP_pos_iff.mpr ⟨m, hmem, ?_⟩
    rw [if_neg (by rw [hinv]; exact Bool.false_ne_true)]
    simp

/-- Claim C5: a matched rule whose priority is missing or not one of
critical/high/medium/low stays in the raw `check_prompt` result (the
hypothesis), lands in none of the four formatting buckets, produces
exactly one `stderr` warning naming the rule and the invalid value, and
matching itself never depends on the priority field. -/
theorem claim_c5_invalid_priority_excluded
    (rules : List (String × SkillConfig)) (prompt : String) (m : MatchResult)
    (hnames : (rules.map Prod.fst).Nodup)
    (hmem : m ∈ (check_prompt rules prompt).1)
    (hinv : isValidPriority m.config.priority = false) :
    (∀ p ∈ known_priorities, m ∉ priorityFilter (check_prompt rules prompt).1 p)
    ∧ ((format_output (check_prompt rules prompt).1).2.filter
        (fun d => d == Diag.invalidPriority m.name m.config.priority)).length
        = 1
    ∧ (∀ (q : Option String) (skillName : String) (cfg : SkillConfig),
        ((checkRule prompt (strLower prompt) skillName
          { cfg with priority := q }).1).isSome =
        ((checkRule prompt (strLower prompt) skillName cfg).1).isSome) := by
  have hne : (check_prompt rules prompt).1.isEmpty = false :=
    List.isEmpty_eq_false.mpr (List.ne_nil_of_mem hmem)
  refine ⟨fun p hp => not_mem_priorityFilter hp hinv, ?_, ?_⟩
  · rw [format_output, if_neg (by rw [hne]; exact Bool.false_ne_true)]
    exact priorityWarnings_unique hnames hmem hinv
  · intro q skillName cfg
    show (checkRule prompt (strLower prompt) skillName
      ⟨cfg.keywords, cfg.intentPatterns, q⟩).1.isSome = _
    unfold checkRule
    have hkeq : keywordHit (strLower prompt)
        (⟨cfg.keywords, cfg.intentPatterns, q⟩ : SkillConfig) =
        keywordHit (strLower prompt) cfg := rfl
    rw [hkeq]
    rcases hk : keywordHit (strLower prompt) cfg with _ | _
    · simp only [Bool.false_eq_true, if_false]
      exact intentLoop_fst_isSome_congr prompt skillName skillName _ cfg
        cfg.intentPatterns
    · simp

end SkillActivation

namespace SkillActivation

/-- Concrete rule with an invalid priority value. -/
def cfgUrgent : SkillConfig :=
  ⟨["deploy"], [], some "urgent"⟩

/-- Concrete one-rule rule set whose rule has an invalid priority. -/
def rulesUrgent : List (String × SkillConfig) :=
  [("deploy-helper", cfgUrgent)]

/-- The match produced by `rulesUrgent` on the prompt `"Deploy!"`. -/
def matchUrgent : MatchResult :=
  ⟨"deploy-helper", "keyword", cfgUrgent⟩

theorem claim_c5_witness :
    ((rulesUrgent.map Prod.fst).Nodup
      ∧ matchUrgent ∈ (check_prompt rulesUrgent "Deploy!").1
      ∧ isValidPriority matchUrgent.config.priority = false)
    ∧ ((∀ p ∈ known_priorities,
        matchUrgent ∉ priorityFilter (check_prompt rulesUrgent "Deploy!").1 p)
      ∧ ((format_output (check_prompt rulesUrgent "Deploy!").1).2.filter
          (fun d => d == Diag.invalidPriority matchUrgent.name
            matchUrgent.config.priority)).length = 1
      ∧ (∀ (q : Option String) (skillName : String) (cfg : SkillConfig),
          ((checkRule "Deploy!" (strLower "Deploy!") skillName
            { cfg with priority := q }).1).isSome =
          ((checkRule "Deploy!" (strLower "Deploy!") skillName cfg).1).isSome)) :=
  ⟨⟨by decide,
    by rw [show (check_prompt rulesUrgent "Deploy!").1 = [matchUrgent] from rfl]
       exact List.mem_singleton_self _,
    by decide⟩,
   claim_c5_invalid_priority_excluded rulesUrgent "Deploy!" matchUrgent
    (by decide)
    (by rw [show (check_prompt rulesUrgent "Deploy!").1 = [matchUrgent] from rfl]
        exact List.mem_singleton_self _)
    (by decide)⟩

/-- Claim C6: `format_output` on the empty match list returns exactly the
empty string (and no warnings); `output_json` on the empty match list
emits no payload line; and a full invocation whose evaluation yields no
matches exits 0 with no payload. -/
theorem claim_c6_empty_matches_no_output :
    format_output [] = ("", [])
    ∧ output_json [] = (none, [])
    ∧ (∀ (rules : List (String × SkillConfig)) (raw : String)
        (pr : ParseResult), pr ≠ ParseResult.parsedNonDict →
        (check_prompt rules (derivePrompt raw pr)).1 = [] →
        runHook (.found rules) raw pr =
          ⟨0, none, (check_prompt rules (derivePrompt raw pr)).2⟩) := by
  refine ⟨rfl, rfl, ?_⟩
  intro rules raw pr hpr hempty
  have hrun : runHook (.found rules) raw pr =
      evalOutcome rules (derivePrompt raw pr) := by
    cases pr with
    | parsed p t => rfl
    | parsedNonDict => exact absurd rfl hpr
    | decodeError => rfl
  rw [hrun]
  simp [evalOutcome, output_json, hempty]

theorem claim_c6_witness :
    (ParseResult.decodeError ≠ ParseResult.parsedNonDict
      ∧ (check_prompt rulesKw
          (derivePrompt "What is the weather today?"
            ParseResult.decodeError)).1 = [])
    ∧ (format_output [] = ("", [])
      ∧ output_json [] = (none, [])
      ∧ runHook (.found rulesKw) "What is the weather today?"
          ParseResult.decodeError =
        ⟨0, none,
          (check_prompt rulesKw
            (derivePrompt "What is the weather today?"
              ParseResult.decodeError)).2⟩) :=
  ⟨⟨fun h => ParseResult.noConfusion h, rfl⟩,
   ⟨claim_c6_empty_matches_no_output.1,
    claim_c6_empty_matches_no_output.2.1,
    claim_c6_empty_matches_no_output.2.2 rulesKw "What is the weather today?"
      ParseResult.decodeError (fun h => ParseResult.noConfusion h) rfl⟩⟩

/-- Claim C8: stdin text that is not valid JSON (a `JSONDecodeError`)
does not make the invocation fail: the raw text itself becomes the
prompt, evaluation proceeds normally on it, and the exit code is 0. -/
theorem claim_c8_raw_text_fallback
    (rules : List (String × SkillConfig)) (raw : String) :
    derivePrompt raw ParseResult.decodeError = raw
    ∧ runHook (.found rules) raw ParseResult.decodeError =
        evalOutcome rules raw
    ∧ (runHook (.found rules) raw ParseResult.decodeError).exitCode = 0
    ∧ (runHook (.found rules) raw ParseResult.decodeError).payload =
        (output_json (check_prompt rules raw).1).1 :=
  ⟨rfl, rfl, rfl, rfl⟩

/-- Claim C9: a missing rules file or malformed rules JSON aborts the
whole invocation with exit code 1 and a descriptive diagnostic, while a
successfully loaded rule set always exits 0, whether or not any rule
matched. -/
theorem claim_c9_load_failures_fatal
    (raw : String) (pr : ParseResult) (path msg : String)
    (rules : List (String × SkillConfig))
    (hpr : pr ≠ ParseResult.parsedNonDict) :
    runHook (.notFound path) raw pr =
      ⟨1, none, [Diag.rulesNotFound path]⟩
    ∧ runHook (.parseError msg) raw pr =
      ⟨1, none, [Diag.rulesParseError msg]⟩
    ∧ (runHook (.found rules) raw pr).exitCode = 0 := by
  cases pr with
  | parsed p t => exact ⟨rfl, rfl, rfl⟩
  | parsedNonDict => exact absurd rfl hpr
  | decodeError => exact ⟨rfl, rfl, rfl⟩

theorem claim_c9_witness :
    (ParseResult.parsed (some "hi") none ≠ ParseResult.parsedNonDict)
    ∧ (runHook (.notFound "/tmp/skill-rules.json") "hi"
        (ParseResult.parsed (some "hi") none) =
      ⟨1, none, [Diag.rulesNotFound "/tmp/skill-rules.json"]⟩
    ∧ runHook (.parseError "Expecting value") "hi"
        (ParseResult.parsed (some "hi") none) =
      ⟨1, none, [Diag.rulesParseError "Expecting value"]⟩
    ∧ (runHook (.found rulesKw) "hi"
        (ParseResult.parsed (some "hi") none)).exitCode = 0) :=
  ⟨fun h => ParseResult.noConfusion h,
   claim_c9_load_failures_fatal "hi" (ParseResult.parsed (some "hi") none)
    "/tmp/skill-rules.json" "Expecting value" rulesKw
    (fun h => ParseResult.noConfusion h)⟩

end SkillActivation

namespace SkillActivation

theorem sectionLines_of_isEmpty {label : String} {skills : List MatchResult}
    (h : skills.isEmpty = true) : sectionLines label skills = [] := by
  rw [sectionLines, if_pos h]

theorem ne_arrow_of_head {L : String} (h : L.data.head? ≠ some ' ')
    (n : String) : L ≠ "  → " ++ n := by
  intro he
  apply h
  rw [he, String.data_append]
  rfl

theorem label_not_mem_sectionLines {label other : String}
    (h1 : label ≠ other) (h2 : ∀ n, label ≠ "  → " ++ n) (h3 : label ≠ "")
    (skills : List MatchResult) : label ∉ sectionLines other skills := by
  intro hm
  rw [sectionLines] at hm
  by_cases he : skills.isEmpty
  · rw [if_pos he] at hm
    exact List.not_mem_nil label hm
  · rw [if_neg he] at hm
    rcases List.mem_cons.mp hm with h | h
    · exact h1 h
    · rcases List.mem_append.mp h with h | h
      · obtain ⟨s, _, hs⟩ := List.mem_map.mp h
        exact h2 s.name hs.symm
      · exact h3 (List.mem_singleton.mp h)

theorem label_mem_sectionLines {label : String} {skills : List MatchResult}
    (he : skills.isEmpty = false) : label ∈ sectionLines label skills := by
  rw [sectionLines, if_neg (by rw [he]; exact Bool.false_ne_true)]
  exact List.mem_cons_self _ _

theorem arrow_mem_sectionLines {label : String} {skills : List MatchResult}
    {m : MatchResult} (hm : m ∈ skills) :
    ("  → " ++ m.name) ∈ sectionLines label skills := by
  have he : skills.isEmpty = false :=
    List.isEmpty_eq_false.mpr (List.ne_nil_of_mem hm)
  rw [sectionLines, if_neg (by rw [he]; exact Bool.false_ne_true)]
  exact List.mem_cons_of_mem _
    (List.mem_append_left _ (List.mem_map_of_mem _ hm))

theorem mem_reportLines_of_header {matched : List MatchResult} {l : String}
    (h : l ∈ headerBlock) : l ∈ reportLines matched :=
  List.mem_append_left _ (List.mem_append_left _ (List.mem_append_left _
    (List.mem_append_left _ (List.mem_append_left _ h))))

theorem mem_reportLines_of_footer {matched : List MatchResult} {l : String}
    (h : l ∈ footerBlock) : l ∈ reportLines matched :=
  List.mem_append_right _ h

theorem mem_reportLines_of_sec₁ {matched : List MatchResult} {l : String}
    (h : l ∈ sectionLines criticalLabel (priorityFilter matched "critical")) :
    l ∈ reportLines matched :=
  List.mem_append_left _ (List.mem_append_left _ (List.mem_append_left _
    (List.mem_append_left _ (List.mem_append_right headerBlock h))))

theorem mem_reportLines_of_sec₂ {matched : List MatchResult} {l : String}
    (h : l ∈ sectionLines highLabel (priorityFilter matched "high")) :
    l ∈ reportLines matched :=
  List.mem_append_left _ (List.mem_append_left _ (List.mem_append_left _
    (List.mem_append_right _ h)))

theorem mem_reportLines_of_sec₃ {matched : List MatchResult} {l : String}
    (h : l ∈ sectionLines mediumLabel (priorityFilter matched "medium")) :
    l ∈ reportLines matched :=
  List.mem_append_left _ (List.mem_append_left _ (List.mem_append_right _ h))

theorem mem_reportLines_of_sec₄ {matched : List MatchResult} {l : String}
    (h : l ∈ sectionLines lowLabel (priorityFilter matched "low")) :
    l ∈ reportLines matched :=
  List.mem_append_left _ (List.mem_append_right _ h)

theorem not_mem_reportLines {matched : List MatchResult} {L : String}
    (hb : L ≠ banner) (ht : L ≠ titleLine) (he : L ≠ "") (ha : L ≠ actionLine)
    (h1 : L ∉ sectionLines criticalLabel (priorityFilter matched "critical"))
    (h2 : L ∉ sectionLines highLabel (priorityFilter matched "high"))
    (h3 : L ∉ sectionLines mediumLabel (priorityFilter matched "medium"))
    (h4 : L ∉ sectionLines lowLabel (priorityFilter matched "low")) :
    L ∉ reportLines matched := by
  intro hm
  simp only [reportLines, headerBlock, footerBlock, List.mem_append,
    List.mem_cons, List.not_mem_nil, or_false] at hm
  tauto

/-- The labels of the non-empty priority buckets, in the fixed display
order critical, high, medium, low. -/
def bucketLabel (matched : List MatchResult) (p : String) : List String :=
  if (priorityFilter matched p).isEmpty then [] else [labelOf p]

/-- The bucket labels present in the report, in display order. -/
def presentLabels (matched : List MatchResult) : List String :=
  bucketLabel matched "critical" ++ bucketLabel matched "high"
    ++ bucketLabel matched "medium" ++ bucketLabel matched "low"

theorem bucketLabel_sublist_sectionLines (matched : List MatchResult)
    (p : String) :
    (bucketLabel matched p).Sublist
      (sectionLines (labelOf p) (priorityFilter matched p)) := by
  rw [bucketLabel, sectionLines]
  by_cases he : (priorityFilter matched p).isEmpty
  · rw [if_pos he, if_pos he]
  · rw [if_neg he, if_neg he]
    exact (List.nil_sublist _).cons₂ _

end SkillActivation

namespace SkillActivation

theorem priorityFilter_eq_nil_of_all_invalid {matched : List MatchResult}
    (h : ∀ m ∈ matched, isValidPriority m.config.priority = false)
    {p : String} (hp : p ∈ known_priorities) :
    priorityFilter matched p = [] := by
  rw [priorityFilter, List.filter_eq_nil_iff]
  intro m hm hpred
  exact not_mem_priorityFilter hp (h m hm) (List.mem_filter.mpr ⟨hm, hpred⟩)

theorem length_joinLines_ge (l : List String) (a : String) (ha : a ∈ l) :
    a.length ≤ (joinLines l).length := by
  induction l with
  | nil => cases ha
  | cons b bs ih =>
    cases bs with
    | nil =>
      rcases List.mem_singleton.mp ha with rfl
      simp [joinLines]
    | cons c cs =>
      rcases List.mem_cons.mp ha with rfl | hmem
      · simp only [joinLines, String.length_append]
        omega
      · have hle := ih hmem
        simp only [joinLines] at hle ⊢
        rw [String.length_append, String.length_append]
        omega

/-- Claim C7: a non-empty match list is rendered as the joined report
lines; a priority bucket with no matched rules contributes no label line;
a non-empty bucket contributes its label and one `  → name` line per
rule; and the labels that do appear occur in the fixed display order
critical, high, medium, low. -/
theorem claim_c7_grouped_priority_output
    (matched : List MatchResult) (h : matched ≠ []) :
    (format_output matched).1 = joinLines (reportLines matched)
    ∧ (∀ p ∈ known_priorities, (priorityFilter matched p).isEmpty = true →
        labelOf p ∉ reportLines matched)
    ∧ (∀ p ∈ known_priorities, (priorityFilter matched p).isEmpty = false →
        labelOf p ∈ reportLines matched
          ∧ ∀ m ∈ priorityFilter matched p,
              ("  → " ++ m.name) ∈ reportLines matched)
    ∧ (presentLabels matched).Sublist (reportLines matched) := by
  have hne : matched.isEmpty = false := List.isEmpty_eq_false.mpr h
  refine ⟨?_, ?_, ?_, ?_⟩
  · rw [format_output, if_neg (by rw [hne]; exact Bool.false_ne_true)]
  · intro p hp he
    simp only [known_priorities, List.mem_cons, List.mem_singleton,
      List.not_mem_nil, or_false] at hp
    rcases hp with rfl | rfl | rfl | rfl
    · exact not_mem_reportLines (by decide) (by decide) (by decide) (by decide)
        (by rw [sectionLines_of_isEmpty he]; exact List.not_mem_nil _)
        (label_not_mem_sectionLines (by decide)
          (ne_arrow_of_head (by decide)) (by decide) _)
        (label_not_mem_sectionLines (by decide)
          (ne_arrow_of_head (by decide)) (by decide) _)
        (label_not_mem_sectionLines (by decide)
          (ne_arrow_of_head (by decide)) (by decide) _)
    · exact not_mem_reportLines (by decide) (by decide) (by decide) (by decide)
        (label_not_mem_sectionLines (by decide)
          (ne_arrow_of_head (by decide)) (by decide) _)
        (by rw [sectionLines_of_isEmpty he]; exact List.not_mem_nil _)
        (label_not_mem_sectionLines (by decide)
          (ne_arrow_of_head (by decide)) (by decide) _)
        (label_not_mem_sectionLines (by decide)
          (ne_arrow_of_head (by decide)) (by decide) _)
    · exact not_mem_reportLines (by decide) (by decide) (by decide) (by decide)
        (label_not_mem_sectionLines (by decide)
          (ne_arrow_of_head (by decide)) (by decide) _)
        (label_not_mem_sectionLines (by decide)
          (ne_arrow_of_head (by decide)) (by decide) _)
        (by rw [sectionLines_of_isEmpty he]; exact List.not_mem_nil _)
        (label_not_mem_sectionLines (by decide)
          (ne_arrow_of_head (by decide)) (by decide) _)
    · exact not_mem_reportLines (by decide) (by decide) (by decide) (by decide)
        (label_not_mem_sectionLines (by decide)
          (ne_arrow_of_head (by decide)) (by decide) _)
        (label_not_mem_sectionLines (by decide)
          (ne_arrow_of_head (by decide)) (by decide) _)
        (label_not_mem_sectionLines (by decide)
          (ne_arrow_of_head (by decide)) (by decide) _)
        (by rw [sectionLines_of_isEmpty he]; exact List.not_mem_nil _)
  · intro p hp he
    simp only [known_priorities, List.mem_cons, List.mem_singleton,
      List.not_mem_nil, or_false] at hp
    rcases hp with rfl | rfl | rfl | rfl
    · exact ⟨mem_reportLines_of_sec₁ (label_mem_sectionLines he),
        fun m hm => mem_reportLines_of_sec₁ (arrow_mem_sectionLines hm)⟩
    · exact ⟨mem_reportLines_of_sec₂ (label_mem_sectionLines he),
        fun m hm => mem_reportLines_of_sec₂ (arrow_mem_sectionLines hm)⟩
    · exact ⟨mem_reportLines_of_sec₃ (label_mem_sectionLines he),
        fun m hm => mem_reportLines_of_sec₃ (arrow_mem_sectionLines hm)⟩
    · exact ⟨mem_reportLines_of_sec₄ (label_mem_sectionLines he),
        fun m hm => mem_reportLines_of_sec₄ (arrow_mem_sectionLines hm)⟩
  · have hb1 := bucketLabel_sublist_sectionLines matched "critical"
    have hb2 := bucketLabel_sublist_sectionLines matched "high"
    have hb3 := bucketLabel_sublist_sectionLines matched "medium"
    have hb4 := bucketLabel_sublist_sectionLines matched "low"
    have s1 : (bucketLabel matched "critical").Sublist
        (headerBlock
          ++ sectionLines criticalLabel (priorityFilter matched "critical")) :=
      (List.nil_sublist headerBlock).append hb1
    have s2 := s1.append hb2
    have s3 := s2.append hb3
    have s4 := s3.append hb4
    exact s4.trans (List.sublist_append_left _ footerBlock)

/-- Concrete match with a recognized priority, for formatting witnesses. -/
def matchKw : MatchResult :=
  ⟨"debug-helper", "keyword", cfgKw⟩

theorem claim_c7_witness :
    (([matchKw] : List MatchResult) ≠ [])
    ∧ ((format_output [matchKw]).1 = joinLines (reportLines [matchKw])
      ∧ (∀ p ∈ known_priorities,
          (priorityFilter [matchKw] p).isEmpty = true →
          labelOf p ∉ reportLines [matchKw])
      ∧ (∀ p ∈ known_priorities,
          (priorityFilter [matchKw] p).isEmpty = false →
          labelOf p ∈ reportLines [matchKw]
            ∧ ∀ m ∈ priorityFilter [matchKw] p,
                ("  → " ++ m.name) ∈ reportLines [matchKw])
      ∧ (presentLabels [matchKw]).Sublist (reportLines [matchKw])) :=
  ⟨List.cons_ne_nil _ _,
   claim_c7_grouped_priority_output [matchKw] (List.cons_ne_nil _ _)⟩

/-- Claim C10: a non-empty match list always yields a non-empty report
containing the title banner line and the trailing action directive; when
every matched rule has an invalid priority the report consists of the
header and footer alone — it names no rule yet still directs the host to
act, so a report without rule names does not imply an empty match list. -/
theorem claim_c10_nonempty_report_structure
    (matched : List MatchResult) (h : matched ≠ []) :
    (format_output matched).1 = joinLines (reportLines matched)
    ∧ (format_output matched).1 ≠ ""
    ∧ titleLine ∈ reportLines matched
    ∧ actionLine ∈ reportLines matched
    ∧ ((∀ m ∈ matched, isValidPriority m.config.priority = false) →
        reportLines matched =
          [banner, titleLine, banner, "", actionLine, banner]) := by
  have hne : matched.isEmpty = false := List.isEmpty_eq_false.mpr h
  have hfmt : (format_output matched).1 = joinLines (reportLines matched) := by
    rw [format_output, if_neg (by rw [hne]; exact Bool.false_ne_true)]
  have htitle : titleLine ∈ reportLines matched :=
    mem_reportLines_of_header (by simp [headerBlock])
  refine ⟨hfmt, ?_, htitle, ?_, ?_⟩
  · rw [hfmt]
    intro h0
    have hlen := length_joinLines_ge (reportLines matched) titleLine htitle
    rw [h0] at hlen
    exact absurd hlen (by decide)
  · exact mem_reportLines_of_footer (by simp [footerBlock])
  · intro hall
    have h1 := priorityFilter_eq_nil_of_all_invalid hall
      (show "critical" ∈ known_priorities by decide)
    have h2 := priorityFilter_eq_nil_of_all_invalid hall
      (show "high" ∈ known_priorities by decide)
    have h3 := priorityFilter_eq_nil_of_all_invalid hall
      (show "medium" ∈ known_priorities by decide)
    have h4 := priorityFilter_eq_nil_of_all_invalid hall
      (show "low" ∈ known_priorities by decide)
    rw [reportLines, h1, h2, h3, h4]
    rfl

theorem claim_c10_witness :
    (([matchUrgent] : List MatchResult) ≠ [])
    ∧ ((format_output [matchUrgent]).1 = joinLines (reportLines [matchUrgent])
      ∧ (format_output [matchUrgent]).1 ≠ ""
      ∧ titleLine ∈ reportLines [matchUrgent]
      ∧ actionLine ∈ reportLines [matchUrgent]
      ∧ ((∀ m ∈ [matchUrgent], isValidPriority m.config.priority = false) →
          reportLines [matchUrgent] =
            [banner, titleLine, banner, "", actionLine, banner])) :=
  ⟨List.cons_ne_nil _ _,
   claim_c10_nonempty_report_structure [matchUrgent] (List.cons_ne_nil _ _)⟩

end SkillActivation
